import Mathlib

/-!
# GeologicalProcess: counting semaphore and time-ordered task scheduler

A shallow embedding of `src/include/Semaphore.hpp`, `src/TaskScheduler.hpp` and
`src/TaskScheduler.cpp`, followed by the theorems proved about them.

Conventions of the embedding.

* A C++ `int` (the semaphore counters) is an `Int` in `[-2^31, 2^31)`; an
  increment or decrement of a `std::atomic<int>` wraps in two's complement
  (`wrapInt32`).
* A `std::chrono::steady_clock` time point or duration is its signed 64-bit tick
  count; chrono arithmetic is taken modulo `2^64` (`wrapInt64`).
* `unsigned int` arithmetic is taken modulo `2^32`.
* A `std::function<void()>` is an identifier of the stored callable; running it
  is recorded in the list of invoked callables.
* Each member function that runs under a lock is one atomic state transformer.
-/

namespace geiger

/-! ## Machine integers -/

/-- Smallest value of a C++ `int`. -/
def INT_MIN : Int := -2147483648

/-- Largest value of a C++ `int`. -/
def INT_MAX : Int := 2147483647

/-- Two's complement reduction of an integer to the range of a C++ `int`. -/
def wrapInt32 (x : Int) : Int := (x + 2147483648) % 4294967296 - 2147483648

/-- Smallest tick count of a signed 64-bit `std::chrono` duration,
`duration::min()`. -/
def INT64_MIN : Int := -9223372036854775808

/-- Largest tick count of a signed 64-bit `std::chrono` duration. -/
def INT64_MAX : Int := 9223372036854775807

/-- Two's complement reduction of an integer to the signed 64-bit range. -/
def wrapInt64 (x : Int) : Int :=
  (x + 9223372036854775808) % 18446744073709551616 - 9223372036854775808

/-- The value is representable as a C++ `int`. -/
def isInt32 (x : Int) : Prop := INT_MIN ≤ x ∧ x ≤ INT_MAX

/-- The value is representable as a signed 64-bit tick count. -/
def isInt64 (x : Int) : Prop := INT64_MIN ≤ x ∧ x ≤ INT64_MAX

instance (x : Int) : Decidable (isInt32 x) := by unfold isInt32; infer_instance

instance (x : Int) : Decidable (isInt64 x) := by unfold isInt64; infer_instance

namespace ConcUtils

/-! ## `Semaphore` (src/include/Semaphore.hpp) -/

/-- The data members of `Semaphore<Mutex>` that carry state: `init_count_`,
`count_` and `destructing`. The mutex and the condition variable only make each
member function atomic and are not represented. -/
structure Semaphore where
  init_count_ : Int
  count_ : Int
  destructing : Bool
deriving DecidableEq, Repr

namespace Semaphore

/-- Constructor `Semaphore(int c)`:
`init_count_((c >= 0) ? c : 0), count_((c >= 0 ? c : 0)), destructing{false}`. -/
def new (c : Int) : Semaphore :=
  { init_count_ := if c ≥ 0 then c else 0
    count_ := if c ≥ 0 then c else 0
    destructing := false }

/-- Member `Wait()`. When `destructing` is set the body is skipped. Otherwise the
call blocks until `count_ > 0` and then runs `--count_`; a call that would block
has no result (`none`). -/
def Wait (s : Semaphore) : Option Semaphore :=
  if s.destructing = false then
    if s.count_ > 0 then
      some { s with count_ := wrapInt32 (s.count_ - 1) }
    else
      none
  else
    some s

/-- Member `TryWait()`:
`if (count_.load() > 0 && !destructing.load()) { --count_; return true; }
 else { return false; }`. -/
def TryWait (s : Semaphore) : Bool × Semaphore :=
  if s.count_ > 0 ∧ s.destructing = false then
    (true, { s with count_ := wrapInt32 (s.count_ - 1) })
  else
    (false, s)

/-- Member `Signal()`:
`if (count_.load() < (init_count_ > 0) ? init_count_ : 1) { ++count_; cv_.notify_one(); }`.
The relational operators bind tighter than `?:`, so the condition is
`(count_ < (init_count_ > 0)) ? init_count_ : 1`, with the `bool` value of
`init_count_ > 0` promoted to `0` or `1` and the selected `int` tested against
zero. -/
def Signal (s : Semaphore) : Semaphore :=
  let promoted : Int := if s.init_count_ > 0 then 1 else 0
  let selected : Int := if s.count_ < promoted then s.init_count_ else 1
  if selected ≠ 0 then
    { s with count_ := wrapInt32 (s.count_ + 1) }
  else
    s

/-- The three public operations of the semaphore. -/
inductive Op where
  | wait
  | tryWait
  | signal
deriving DecidableEq, Repr

/-- One call on the semaphore; `none` when the call is a `Wait()` that blocks. -/
def apply (s : Semaphore) : Op → Option Semaphore
  | Op.wait => s.Wait
  | Op.tryWait => some s.TryWait.2
  | Op.signal => some s.Signal

/-- A sequence of calls, each taken only when it does not block. -/
def run (s : Semaphore) : List Op → Option Semaphore
  | [] => some s
  | op :: rest =>
    match s.apply op with
    | none => none
    | some s1 => run s1 rest

end Semaphore

end ConcUtils

namespace async

open ConcUtils

/-! ## `Task` and the priority queue (src/TaskScheduler.hpp) -/

/-- A stored `std::function<void()>`, identified by a number. -/
abbrev Callable := Nat

/-- Struct `Task`: the packaged callable and its scheduled time, the tick count
of a `steady_clock::time_point`. -/
structure Task where
  packed_task : Callable
  timeOfExecution : Int
deriving DecidableEq, Repr

namespace Task

/-- Member `operator<`: `return timeOfExecution > other.timeOfExecution;`. -/
def lt (self other : Task) : Bool :=
  decide (self.timeOfExecution > other.timeOfExecution)

end Task

/-- The contents of `std::priority_queue<Task>`, in the order of insertion. The
container is the standard library's; it is represented by its contract: `top()`
is an element that is not less than any other under `Task::operator<`, `pop()`
removes that element and `push` adds one element. -/
abbrev PriorityQueue := List Task

namespace PriorityQueue

/-- The greatest element under `Task::operator<` seen so far. -/
def better (best u : Task) : Task := if Task.lt best u then u else best

/-- Call `top()`: a greatest element under `Task::operator<`; no result on an
empty queue, where the call is undefined. -/
def top : PriorityQueue → Option Task
  | [] => none
  | t :: rest => some (rest.foldl better t)

/-- Call `pop()`: removes the element `top()` returns. -/
def pop (q : PriorityQueue) : PriorityQueue :=
  match top q with
  | none => q
  | some t => q.erase t

/-- Call `push(t)`. -/
def push (t : Task) (q : PriorityQueue) : PriorityQueue := q ++ [t]

end PriorityQueue

/-! ## `TaskScheduler` (src/TaskScheduler.hpp, src/TaskScheduler.cpp) -/

/-- The data members of `TaskScheduler` the submission and dispatch paths read or
write. The thread handles and the counters of the rendezvous barrier
(`activeThreads`, `sync`, `syncedThreads`) are not represented. -/
structure TaskScheduler where
  threadPoolSize : Nat
  queueSem : Semaphore
  tasks : PriorityQueue
  acceptNew : Bool
deriving DecidableEq, Repr

namespace TaskScheduler

/-- Constructor `TaskScheduler()`, given the value `hardware_concurrency` that
`std::thread::hardware_concurrency()` returns (an `unsigned int`):
`threadPoolSize = std::thread::hardware_concurrency() - 1;` in `unsigned`
arithmetic, `queueSem.reset(new semaphore(0)); acceptNew.store(true);`. -/
def new (hardware_concurrency : Nat) : TaskScheduler :=
  { threadPoolSize := (hardware_concurrency + 4294967296 - 1) % 4294967296
    queueSem := Semaphore.new 0
    tasks := []
    acceptNew := true }

/-- The conversion of the time-point overloads:
`auto dur = tp - time_point<Clock, Duration>::min();
 auto steady_time = steady_clock::time_point(dur);`
for a caller time point of `tp` ticks whose tick is `ratio` ticks of
`steady_clock` (`ratio = 1` for a clock with the representation of
`steady_clock`). -/
def steady_time (ratio tp : Int) : Int :=
  let dur := wrapInt64 (tp - INT64_MIN)
  wrapInt64 (dur * ratio)

/-- Overload `SubmitTask(time_point tp, f, args...)`: builds the task and runs
`tasks.push(std::move(t)); queueSem->Signal();` under `queueMut`. The returned
future is not represented. -/
def SubmitTask_time_point (ratio tp : Int) (f : Callable) (s : TaskScheduler) :
    TaskScheduler :=
  let t : Task := ⟨f, steady_time ratio tp⟩
  { s with tasks := PriorityQueue.push t s.tasks, queueSem := s.queueSem.Signal }

/-- Overload `SubmitTaskFireAndForget(time_point tp, f, args...)`. -/
def SubmitTaskFireAndForget_time_point (ratio tp : Int) (f : Callable)
    (s : TaskScheduler) : TaskScheduler :=
  let t : Task := ⟨f, steady_time ratio tp⟩
  { s with tasks := PriorityQueue.push t s.tasks, queueSem := s.queueSem.Signal }

/-- Overload `SubmitTask(duration dur, f, args...)`, called when
`steady_clock::now()` reads `now`:
`steady_clock::time_point tp = std::chrono::steady_clock::now() + dur;`
for a duration of `dur` ticks whose tick is `ratio` ticks of `steady_clock`. -/
def SubmitTask_duration (now ratio dur : Int) (f : Callable) (s : TaskScheduler) :
    TaskScheduler :=
  let tp := wrapInt64 (now + wrapInt64 (dur * ratio))
  let t : Task := ⟨f, tp⟩
  { s with tasks := PriorityQueue.push t s.tasks, queueSem := s.queueSem.Signal }

/-- Overload `SubmitTaskFireAndForget(duration dur, f, args...)`. -/
def SubmitTaskFireAndForget_duration (now ratio dur : Int) (f : Callable)
    (s : TaskScheduler) : TaskScheduler :=
  let tp := wrapInt64 (now + wrapInt64 (dur * ratio))
  let t : Task := ⟨f, tp⟩
  { s with tasks := PriorityQueue.push t s.tasks, queueSem := s.queueSem.Signal }

/-- Overload `SubmitTask(f, args...)`, called when `steady_clock::now()` reads
`now`: `steady_clock::time_point tp = steady_clock::now() + microseconds(-1);`
where one microsecond is `perMicro` ticks of `steady_clock` (1000 for a
nanosecond tick). -/
def SubmitTask_default (now : Int) (perMicro : Nat) (f : Callable)
    (s : TaskScheduler) : TaskScheduler :=
  let tp := wrapInt64 (now + wrapInt64 (-1 * (perMicro : Int)))
  let t : Task := ⟨f, tp⟩
  { s with tasks := PriorityQueue.push t s.tasks, queueSem := s.queueSem.Signal }

/-- Overload `SubmitTaskFireAndForget(f, args...)`. -/
def SubmitTaskFireAndForget_default (now : Int) (perMicro : Nat) (f : Callable)
    (s : TaskScheduler) : TaskScheduler :=
  let tp := wrapInt64 (now + wrapInt64 (-1 * (perMicro : Int)))
  let t : Task := ⟨f, tp⟩
  { s with tasks := PriorityQueue.push t s.tasks, queueSem := s.queueSem.Signal }

/-- One call of the submission interface: which of the six overloads, with its
time specification and callable. -/
inductive Submission where
  | task_time_point (ratio tp : Int) (f : Callable)
  | fireAndForget_time_point (ratio tp : Int) (f : Callable)
  | task_duration (ratio dur : Int) (f : Callable)
  | fireAndForget_duration (ratio dur : Int) (f : Callable)
  | task_default (perMicro : Nat) (f : Callable)
  | fireAndForget_default (perMicro : Nat) (f : Callable)
deriving DecidableEq, Repr

/-- Runs the overload a submission names, at clock reading `now`. -/
def submit (now : Int) (s : TaskScheduler) : Submission → TaskScheduler
  | Submission.task_time_point ratio tp f => SubmitTask_time_point ratio tp f s
  | Submission.fireAndForget_time_point ratio tp f =>
      SubmitTaskFireAndForget_time_point ratio tp f s
  | Submission.task_duration ratio dur f => SubmitTask_duration now ratio dur f s
  | Submission.fireAndForget_duration ratio dur f =>
      SubmitTaskFireAndForget_duration now ratio dur f s
  | Submission.task_default perMicro f => SubmitTask_default now perMicro f s
  | Submission.fireAndForget_default perMicro f =>
      SubmitTaskFireAndForget_default now perMicro f s

/-- What one locked dispatch step of a worker did: the scheduler afterwards, the
callables it invoked, in order, and how many times it called `Signal()`. -/
structure Dispatched where
  sched : TaskScheduler
  invoked : List Callable
  signalCalls : Nat
deriving DecidableEq, Repr

/-- The locked block of the worker lambda `queuePoll`, run when
`steady_clock::now()` reads `now`:
`Task t = tasks.top(); tasks.pop();
 if (t.timeOfExecution <= now) { t.packed_task(); }
 else { tasks.push(t); queueSem->Signal(); }`.
No result on an empty queue, where `top()` is undefined. -/
def dispatch (now : Int) (s : TaskScheduler) : Option Dispatched :=
  match PriorityQueue.top s.tasks with
  | none => none
  | some t =>
    let popped := PriorityQueue.pop s.tasks
    if t.timeOfExecution ≤ now then
      some { sched := { s with tasks := popped }
             invoked := [t.packed_task]
             signalCalls := 0 }
    else
      some { sched := { s with tasks := PriorityQueue.push t popped
                               queueSem := s.queueSem.Signal }
             invoked := []
             signalCalls := 1 }

/-- Destructor `~TaskScheduler()`, its first statement: `acceptNew.store(false);`. -/
def shutdown (s : TaskScheduler) : TaskScheduler := { s with acceptNew := false }

end TaskScheduler

/-! ## The worker pool as a transition system -/

/-- The scheduler together with the number of workers that have left the
polling loop `while (acceptNew.load() && !queueSem->TryWait());` through a
successful `TryWait()` and have neither run the locked block yet nor skipped
it. -/
structure Pool where
  sched : TaskScheduler
  holding : Nat
deriving DecidableEq, Repr

namespace Pool

/-- The pool right after construction: semaphore count 0, empty queue, no
worker holding a unit. -/
def init (hardware_concurrency : Nat) : Pool :=
  { sched := TaskScheduler.new hardware_concurrency, holding := 0 }

/-- The atomic steps of the pool. -/
inductive Action where
  | submit (now : Int) (v : TaskScheduler.Submission)
  | tryWait
  | dispatch (now : Int)
  | discard
  | shutdown
deriving DecidableEq, Repr

/-- One atomic step; `none` when the step cannot be taken in this state.
* `submit`: one of the six submission overloads.
* `tryWait`: one `queueSem->TryWait()` of a polling worker; on success the
  worker holds a unit.
* `dispatch`: a worker holding a unit runs the locked block; not defined on an
  empty queue. The worker has read `acceptNew` as true in
  `if (this->acceptNew.load())` before it takes `queueMut`, and the destructor
  stores false without that lock, so the store can fall between the read and
  the block: the step does not depend on the value `acceptNew` has when the
  block runs.
* `discard`: a worker holding a unit reads `acceptNew` as false in
  `if (this->acceptNew.load())` and skips the locked block.
* `shutdown`: the destructor stores false to `acceptNew`. -/
def step (p : Pool) : Action → Option Pool
  | Action.submit now v => some { p with sched := p.sched.submit now v }
  | Action.tryWait =>
      let r := p.sched.queueSem.TryWait
      some { sched := { p.sched with queueSem := r.2 }
             holding := if r.1 then p.holding + 1 else p.holding }
  | Action.dispatch now =>
      if 0 < p.holding then
        match p.sched.dispatch now with
        | none => none
        | some r => some { sched := r.sched, holding := p.holding - 1 }
      else
        none
  | Action.discard =>
      if 0 < p.holding ∧ p.sched.acceptNew = false then
        some { p with holding := p.holding - 1 }
      else
        none
  | Action.shutdown => some { p with sched := p.sched.shutdown }

/-- A sequence of atomic steps. -/
def run (p : Pool) : List Action → Option Pool
  | [] => some p
  | a :: rest =>
    match p.step a with
    | none => none
    | some p1 => run p1 rest

/-- The accounting invariant of the pool: the semaphore has capacity 0 and a
count of type `int`; while the count is non-negative, the count plus the number
of workers holding a unit is at most the number of queued tasks; a negative
count (the counter has wrapped) is only met with at least `2^31` more queued
tasks than workers holding a unit. -/
def Inv (p : Pool) : Prop :=
  p.sched.queueSem.init_count_ = 0 ∧ isInt32 p.sched.queueSem.count_ ∧
  (0 ≤ p.sched.queueSem.count_ →
    p.sched.queueSem.count_ + (p.holding : Int) ≤ (p.sched.tasks.length : Int)) ∧
  (p.sched.queueSem.count_ < 0 →
    2147483648 + (p.holding : Int) ≤ (p.sched.tasks.length : Int))

end Pool

/-! ## Concrete states used as examples -/

namespace TaskScheduler

/-- The scheduler of a host whose hardware concurrency reads 1 (no worker is
spawned) after `n` calls `SubmitTaskFireAndForget(f)` of callable 0, each at
clock reading 0 of a nanosecond clock. -/
def backlog : Nat → TaskScheduler
  | 0 => TaskScheduler.new 1
  | n + 1 => SubmitTaskFireAndForget_default 0 1000 0 (backlog n)

/-- A scheduler with seven workers whose queue holds callable 1 scheduled at
tick 10 and callable 2 scheduled at tick 5, with two semaphore units. -/
def twoQueued : TaskScheduler :=
  { threadPoolSize := 7
    queueSem := { init_count_ := 0, count_ := 2, destructing := false }
    tasks := [{ packed_task := 1, timeOfExecution := 10 },
              { packed_task := 2, timeOfExecution := 5 }]
    acceptNew := true }

end TaskScheduler

end async

end geiger

/-! # Theorems -/

namespace geiger

open ConcUtils async

/-! ## Arithmetic of the machine integers -/

theorem wrapInt32_of_isInt32 (x : Int) (h : isInt32 x) : wrapInt32 x = x := by
  unfold isInt32 INT_MIN INT_MAX at h
  unfold wrapInt32
  omega

namespace ConcUtils.Semaphore

/-! ## The semaphore -/

/-- What `TryWait()` computes, by cases on its guard. -/
theorem TryWait_eq (s : Semaphore) (h : isInt32 s.count_) :
    (s.count_ > 0 ∧ s.destructing = false →
      s.TryWait = (true, { s with count_ := s.count_ - 1 })) ∧
    (¬ (s.count_ > 0 ∧ s.destructing = false) → s.TryWait = (false, s)) := by
  have hw : s.count_ > 0 → wrapInt32 (s.count_ - 1) = s.count_ - 1 := by
    intro hpos
    apply wrapInt32_of_isInt32
    unfold isInt32 INT_MIN INT_MAX at *
    omega
  by_cases hc : s.count_ > 0 ∧ s.destructing = false
  · simp [TryWait, hc, hw hc.1]
  · simp [TryWait, hc]

/-- The effect of `TryWait()` on the counters. -/
theorem TryWait_cases (s : Semaphore) (hty : isInt32 s.count_) :
    s.TryWait.2.init_count_ = s.init_count_ ∧
    ((s.TryWait.1 = true ∧ 0 < s.count_ ∧ s.TryWait.2.count_ = s.count_ - 1) ∨
     (s.TryWait.1 = false ∧ s.TryWait.2.count_ = s.count_)) := by
  obtain ⟨hyes, hno⟩ := TryWait_eq s hty
  by_cases hc : s.count_ > 0 ∧ s.destructing = false
  · rw [hyes hc]
    exact ⟨rfl, Or.inl ⟨rfl, hc.1, rfl⟩⟩
  · rw [hno hc]
    exact ⟨rfl, Or.inr ⟨rfl, rfl⟩⟩

/-- As the guard of `Signal()` is written, every call on a state with a
non-negative count below `INT_MAX` increments the count, whatever the
capacity. -/
theorem Signal_increments (s : Semaphore) (hcap : 0 ≤ s.init_count_)
    (h0 : 0 ≤ s.count_) (h1 : s.count_ < INT_MAX) :
    s.Signal = { s with count_ := s.count_ + 1 } := by
  have hw : wrapInt32 (s.count_ + 1) = s.count_ + 1 := by
    apply wrapInt32_of_isInt32
    unfold isInt32 INT_MIN INT_MAX at *
    omega
  by_cases hpos : s.init_count_ > 0
  · have hne : s.init_count_ ≠ 0 := by omega
    by_cases hc : s.count_ < 1
    · simp [Signal, hpos, hc, hne, hw]
    · simp [Signal, hpos, hc, hw]
  · have hz : s.init_count_ = 0 := by omega
    have hn : ¬ s.count_ < 0 := by omega
    simp [Signal, hz, hn, hw]

/-- What `Signal()` does on a semaphore of capacity 0: it increments a
non-negative count below `INT_MAX`, wraps `INT_MAX` to `INT_MIN`, and leaves a
negative count alone. -/
theorem Signal_capacity_zero_cases (s : Semaphore) (hcap : s.init_count_ = 0)
    (hty : isInt32 s.count_) :
    s.Signal.init_count_ = 0 ∧ s.Signal.destructing = s.destructing ∧
    ((0 ≤ s.count_ ∧ s.count_ < INT_MAX ∧ s.Signal.count_ = s.count_ + 1) ∨
     (s.count_ = INT_MAX ∧ s.Signal.count_ = INT_MIN) ∨
     (s.count_ < 0 ∧ s.Signal.count_ = s.count_)) := by
  unfold isInt32 INT_MIN INT_MAX at *
  by_cases hneg : s.count_ < 0
  · simp [Signal, hcap, hneg]
  · have hS : s.Signal.count_ = wrapInt32 (s.count_ + 1) ∧ s.Signal.init_count_ = 0 ∧
        s.Signal.destructing = s.destructing := by
      simp [Signal, hcap, hneg]
    obtain ⟨h1, h2, h3⟩ := hS
    refine ⟨h2, h3, ?_⟩
    rw [h1]
    unfold wrapInt32
    by_cases hmax : s.count_ = 2147483647
    · right
      left
      exact ⟨hmax, by omega⟩
    · left
      exact ⟨by omega, by omega, by omega⟩

/-- The two acquiring calls never take a non-negative count below 0: `TryWait()`
and a `Wait()` that does not block decrement only when `count_ > 0`. -/
theorem acquire_keeps_nonneg (s : Semaphore) (hty : isInt32 s.count_)
    (h0 : 0 ≤ s.count_) :
    0 ≤ s.TryWait.2.count_ ∧ ∀ s1, s.Wait = some s1 → 0 ≤ s1.count_ := by
  constructor
  · rcases (TryWait_cases s hty).2 with ⟨_, hpos, hc⟩ | ⟨_, hc⟩ <;> rw [hc] <;> omega
  · intro s1 hs1
    unfold Wait at hs1
    split at hs1
    · split at hs1
      · rename_i hpos
        have hw : wrapInt32 (s.count_ - 1) = s.count_ - 1 := by
          apply wrapInt32_of_isInt32
          unfold isInt32 INT_MIN INT_MAX at *
          omega
        cases hs1
        show 0 ≤ wrapInt32 (s.count_ - 1)
        rw [hw]
        omega
      · exact absurd hs1 (by simp)
    · cases hs1
      exact h0

/-- C1, evaluated on the code: `Signal()` on a semaphore constructed with
capacity 1, whose count equals its capacity, raises the count to 2, and on a
semaphore constructed with capacity 0 it raises the count from 0 to 1. The
documented bound (no effect when the count equals the capacity) does not hold. -/
theorem Signal_exceeds_capacity :
    (Semaphore.new 1).count_ = 1 ∧ (Semaphore.new 1).init_count_ = 1 ∧
    (Semaphore.new 1).Signal.count_ = 2 ∧
    (Semaphore.new 0).count_ = 0 ∧ (Semaphore.new 0).init_count_ = 0 ∧
    (Semaphore.new 0).Signal.count_ = 1 := by
  decide

/-- C2: in a state whose count is a value of type `int`, `TryWait()` returns true
exactly when `count_ > 0` and `destructing` is not set; in that case the state
afterwards is the state before with `count_` one smaller, and in every other
state it returns false and the state (count and destruction flag included) is
unchanged. -/
theorem TryWait_contract (s : Semaphore) (h : isInt32 s.count_) :
    (s.TryWait.1 = true ↔ (s.count_ > 0 ∧ s.destructing = false)) ∧
    (s.count_ > 0 ∧ s.destructing = false →
      s.TryWait = (true, { s with count_ := s.count_ - 1 })) ∧
    (¬ (s.count_ > 0 ∧ s.destructing = false) → s.TryWait = (false, s)) := by
  obtain ⟨hyes, hno⟩ := TryWait_eq s h
  refine ⟨?_, hyes, hno⟩
  by_cases hc : s.count_ > 0 ∧ s.destructing = false
  · rw [hyes hc]
    simp [hc]
  · rw [hno hc]
    simp [hc]

/-- The contract of `TryWait()` at the state with capacity 3 and count 2, where
the call succeeds and leaves count 1. -/
theorem TryWait_contract_witness :
    isInt32 (Semaphore.mk 3 2 false).count_ ∧
    ((Semaphore.mk 3 2 false).TryWait.1 = true ↔ ((2 : Int) > 0 ∧ false = false)) ∧
    (((2 : Int) > 0 ∧ false = false) →
      (Semaphore.mk 3 2 false).TryWait = (true, Semaphore.mk 3 (2 - 1) false)) ∧
    (¬ ((2 : Int) > 0 ∧ false = false) →
      (Semaphore.mk 3 2 false).TryWait = (false, Semaphore.mk 3 2 false)) :=
  ⟨by decide, TryWait_contract (Semaphore.mk 3 2 false) (by decide)⟩

/-- Consecutive `Signal()` calls, `n` of them, raise a non-negative count by `n`
as long as the result fits a C++ `int`, whatever the capacity. -/
theorem run_replicate_signal (n : Nat) (s : Semaphore) (hcap : 0 ≤ s.init_count_)
    (h0 : 0 ≤ s.count_) (hn : s.count_ + (n : Int) ≤ INT_MAX) :
    s.run (List.replicate n Op.signal ++ [Op.signal]) =
      some { s with count_ := wrapInt32 (s.count_ + (n : Int) + 1) } := by
  induction n generalizing s with
  | zero =>
    have hlt : ¬ s.count_ < 0 := by omega
    by_cases hpos : s.init_count_ > 0
    · have hne : s.init_count_ ≠ 0 := by omega
      by_cases hc : s.count_ < 1
      · simp [run, apply, Signal, hpos, hc, hne]
      · simp [run, apply, Signal, hpos, hc]
    · have hz : s.init_count_ = 0 := by omega
      simp [run, apply, Signal, hz, hlt]
  | succ n ih =>
    have h1 : s.count_ < INT_MAX := by push_cast at hn; omega
    have hs := Signal_increments s hcap h0 h1
    have hstep : s.run (List.replicate (n + 1) Op.signal ++ [Op.signal]) =
        s.Signal.run (List.replicate n Op.signal ++ [Op.signal]) := by
      simp [List.replicate_succ, run, apply]
    rw [hstep, hs]
    have := ih { s with count_ := s.count_ + 1 } hcap (by show 0 ≤ s.count_ + 1; omega)
      (by show s.count_ + 1 + (n : Int) ≤ INT_MAX; push_cast at hn; omega)
    rw [this]
    push_cast
    have e : s.count_ + 1 + (n : Int) + 1 = s.count_ + ((n : Int) + 1) + 1 := by ring
    simp only [e]

/-- On the semaphore constructed with capacity 0, the last of 2147483648
consecutive `Signal()` calls takes the count from 2147483647 to -2147483648. -/
theorem capacity_zero_wraps :
    (Semaphore.new 0).run (List.replicate 2147483647 Op.signal ++ [Op.signal]) =
      some { init_count_ := 0, count_ := -2147483648, destructing := false } := by
  have h := run_replicate_signal 2147483647 (Semaphore.new 0) (by decide) (by decide)
    (by decide)
  rw [h]
  decide

/-- C8, evaluated on the code: on the semaphore constructed with the requested
capacity 2147483647 the one-call sequence `Signal()` does not block and leaves
the count at -2147483648, below 0. -/
theorem Signal_wraps_below_zero :
    (Semaphore.new 2147483647).run [Op.signal] =
      some { init_count_ := 2147483647, count_ := -2147483648, destructing := false } ∧
    (-2147483648 : Int) < 0 := by
  decide

end ConcUtils.Semaphore

namespace async.PriorityQueue

/-! ## The priority queue -/

theorem better_eq (best u : Task) : better best u = best ∨ better best u = u := by
  unfold better
  split <;> simp

theorem better_le_left (best u : Task) :
    (better best u).timeOfExecution ≤ best.timeOfExecution := by
  unfold better Task.lt
  split
  · rename_i h
    have := of_decide_eq_true h
    omega
  · exact le_refl _

theorem better_le_right (best u : Task) :
    (better best u).timeOfExecution ≤ u.timeOfExecution := by
  unfold better Task.lt
  split
  · exact le_refl _
  · rename_i h
    simp at h
    exact h

theorem foldl_better_mem (rest : List Task) (t : Task) :
    rest.foldl better t ∈ t :: rest := by
  induction rest generalizing t with
  | nil => simp
  | cons u rest ih =>
    simp only [List.foldl_cons]
    have h := ih (better t u)
    rcases better_eq t u with he | he
    · rw [he] at h ⊢
      rcases List.mem_cons.mp h with h1 | h1
      · rw [h1]; simp
      · simp [h1]
    · rw [he] at h ⊢
      simp only [List.mem_cons] at h ⊢
      tauto

theorem foldl_better_le (rest : List Task) (t : Task) :
    ∀ u ∈ t :: rest, (rest.foldl better t).timeOfExecution ≤ u.timeOfExecution := by
  induction rest generalizing t with
  | nil => simp
  | cons v rest ih =>
    intro u hu
    simp only [List.foldl_cons]
    have h := ih (better t v)
    have h0 := h (better t v) (List.mem_cons_self _ _)
    simp only [List.mem_cons] at hu
    rcases hu with hu | hu | hu
    · rw [hu]; exact le_trans h0 (better_le_left t v)
    · rw [hu]; exact le_trans h0 (better_le_right t v)
    · exact h u (List.mem_cons_of_mem _ hu)

/-- On a non-empty queue `top()` returns a queued task whose scheduled time is
the least in the queue, and `pop()` removes one copy of it. -/
theorem top_of_ne_nil (q : PriorityQueue) (hq : q ≠ []) :
    ∃ t, top q = some t ∧ t ∈ q ∧ pop q = q.erase t ∧
      ∀ u ∈ q, t.timeOfExecution ≤ u.timeOfExecution := by
  cases q with
  | nil => exact absurd rfl hq
  | cons t rest =>
    refine ⟨rest.foldl better t, rfl, foldl_better_mem rest t, ?_, foldl_better_le rest t⟩
    simp [pop, top]

end async.PriorityQueue

namespace async

/-- C3: for all tasks `A` and `B`, `B < A` under `Task::operator<` exactly when
`A.timeOfExecution < B.timeOfExecution`; and on every non-empty queue `top()`
returns a queued task, the one `pop()` removes, whose scheduled time is less than
or equal to the scheduled time of every task in the queue. -/
theorem earliest_first (A B : Task) (q : PriorityQueue) (hq : q ≠ []) :
    (Task.lt B A = true ↔ A.timeOfExecution < B.timeOfExecution) ∧
    ∃ t, PriorityQueue.top q = some t ∧ t ∈ q ∧
      PriorityQueue.pop q = q.erase t ∧
      ∀ u ∈ q, t.timeOfExecution ≤ u.timeOfExecution := by
  refine ⟨?_, PriorityQueue.top_of_ne_nil q hq⟩
  simp [Task.lt]

/-- The ordering at two tasks scheduled at ticks 5 and 10 and at the queue of
`twoQueued`, whose earliest task is callable 2 at tick 5. -/
theorem earliest_first_witness :
    TaskScheduler.twoQueued.tasks ≠ [] ∧
    ((Task.lt (Task.mk 1 10) (Task.mk 2 5) = true ↔
      (Task.mk 2 5).timeOfExecution < (Task.mk 1 10).timeOfExecution) ∧
    ∃ t, PriorityQueue.top TaskScheduler.twoQueued.tasks = some t ∧
      t ∈ TaskScheduler.twoQueued.tasks ∧
      PriorityQueue.pop TaskScheduler.twoQueued.tasks =
        TaskScheduler.twoQueued.tasks.erase t ∧
      ∀ u ∈ TaskScheduler.twoQueued.tasks, t.timeOfExecution ≤ u.timeOfExecution) :=
  ⟨by decide, earliest_first (Task.mk 2 5) (Task.mk 1 10) TaskScheduler.twoQueued.tasks
    (by decide)⟩

end async

namespace async.TaskScheduler

/-! ## Submission -/

/-- Every submission overload replaces the semaphore by `Signal()` of it and
appends one task to the queue. -/
theorem submit_fields (now : Int) (v : Submission) (s : TaskScheduler) :
    (s.submit now v).queueSem = s.queueSem.Signal ∧
    ∃ t, (s.submit now v).tasks = PriorityQueue.push t s.tasks := by
  cases v <;> exact ⟨rfl, _, rfl⟩

/-- The semaphore and the queue length of `backlog n`, as long as `n` fits a
C++ `int`. -/
theorem backlog_queueSem (n : Nat) (hn : (n : Int) ≤ INT_MAX) :
    (backlog n).queueSem = { init_count_ := 0, count_ := n, destructing := false } ∧
    (backlog n).tasks.length = n := by
  induction n with
  | zero => exact ⟨rfl, rfl⟩
  | succ n ih =>
    have hn1 : (n : Int) ≤ INT_MAX := by push_cast at hn; omega
    obtain ⟨ihs, ihl⟩ := ih hn1
    have hstep : backlog (n + 1) = SubmitTaskFireAndForget_default 0 1000 0 (backlog n) := rfl
    rw [hstep]
    have hs := Semaphore.Signal_increments (backlog n).queueSem
      (by rw [ihs]) (by rw [ihs]; exact Int.natCast_nonneg n)
      (by rw [ihs]; push_cast at hn; show (n : Int) < INT_MAX; omega)
    constructor
    · simp only [SubmitTaskFireAndForget_default, hs]
      rw [ihs]
      push_cast
      rfl
    · simp [SubmitTaskFireAndForget_default, PriorityQueue.push, ihl]

/-- C4, as amended: for each of the six submission overloads and every pre-state
whose semaphore has capacity 0 and a count `c` with `0 <= c < 2147483647`, one
submission appends exactly one task to the queue, so that the queue afterwards
is the old queue plus that task, and the semaphore count afterwards is `c + 1`. -/
theorem submit_adds_one (now : Int) (v : Submission) (s : TaskScheduler)
    (hcap : s.queueSem.init_count_ = 0) (h0 : 0 ≤ s.queueSem.count_)
    (h1 : s.queueSem.count_ < INT_MAX) :
    ∃ t, (s.submit now v).tasks = PriorityQueue.push t s.tasks ∧
      List.Perm (s.submit now v).tasks (t :: s.tasks) ∧
      (s.submit now v).queueSem.count_ = s.queueSem.count_ + 1 := by
  obtain ⟨hsem, t, ht⟩ := submit_fields now v s
  refine ⟨t, ht, ?_, ?_⟩
  · rw [ht]
    exact List.perm_append_singleton t s.tasks
  · rw [hsem, Semaphore.Signal_increments s.queueSem (by rw [hcap]) h0 h1]

/-- One submission without a time specification on `twoQueued`, whose semaphore
count is 2: the queue gains one task and the count becomes 3. -/
theorem submit_adds_one_witness :
    twoQueued.queueSem.init_count_ = 0 ∧ 0 ≤ twoQueued.queueSem.count_ ∧
    twoQueued.queueSem.count_ < INT_MAX ∧
    ∃ t, (twoQueued.submit 5000 (Submission.task_default 1000 7)).tasks =
        PriorityQueue.push t twoQueued.tasks ∧
      List.Perm (twoQueued.submit 5000 (Submission.task_default 1000 7)).tasks
        (t :: twoQueued.tasks) ∧
      (twoQueued.submit 5000 (Submission.task_default 1000 7)).queueSem.count_ =
        twoQueued.queueSem.count_ + 1 :=
  ⟨by decide, by decide, by decide,
    submit_adds_one 5000 (Submission.task_default 1000 7) twoQueued
      (by decide) (by decide) (by decide)⟩

/-- C4, as stated, fails: after 2147483647 submissions on a host without
workers the semaphore of capacity 0 has count 2147483647 and the queue holds
2147483647 tasks; one more submission leaves the count at -2147483648, not at
one more than before. -/
theorem submit_wraps_full_semaphore :
    (backlog 2147483647).queueSem.init_count_ = 0 ∧
    (backlog 2147483647).queueSem.count_ = 2147483647 ∧
    (backlog 2147483647).tasks.length = 2147483647 ∧
    ((backlog 2147483647).submit 0 (Submission.fireAndForget_default 1000 0)).queueSem.count_
      = -2147483648 ∧
    ¬ ((backlog 2147483647).submit 0 (Submission.fireAndForget_default 1000 0)).queueSem.count_
      = (backlog 2147483647).queueSem.count_ + 1 := by
  obtain ⟨hs, hl⟩ := backlog_queueSem 2147483647 (by decide)
  have hc : ((backlog 2147483647).submit 0
      (Submission.fireAndForget_default 1000 0)).queueSem.count_ = -2147483648 := by
    show ((backlog 2147483647).queueSem.Signal).count_ = -2147483648
    rw [hs]
    decide
  refine ⟨by rw [hs], by rw [hs]; rfl, hl, hc, ?_⟩
  rw [hc, hs]
  decide

/-! ## Dispatch -/

/-- What the locked block computes on a non-empty queue. -/
theorem dispatch_eq (s : TaskScheduler) (now : Int) (hq : s.tasks ≠ []) :
    ∃ t, PriorityQueue.top s.tasks = some t ∧ t ∈ s.tasks ∧
      (∀ u ∈ s.tasks, t.timeOfExecution ≤ u.timeOfExecution) ∧
      (t.timeOfExecution ≤ now →
        s.dispatch now = some { sched := { s with tasks := s.tasks.erase t }
                                invoked := [t.packed_task]
                                signalCalls := 0 }) ∧
      (¬ t.timeOfExecution ≤ now →
        s.dispatch now =
          some { sched := { s with tasks := PriorityQueue.push t (s.tasks.erase t)
                                   queueSem := s.queueSem.Signal }
                 invoked := []
                 signalCalls := 1 }) := by
  obtain ⟨t, htop, hmem, hpop, hle⟩ := PriorityQueue.top_of_ne_nil s.tasks hq
  refine ⟨t, htop, hmem, hle, ?_, ?_⟩
  · intro hdue
    simp only [dispatch, htop, hdue, if_true, hpop]
  · intro hdue
    simp only [dispatch, htop, hdue, if_false, hpop]

/-- The locked block has a result on every non-empty queue. -/
theorem dispatch_isSome (s : TaskScheduler) (now : Int) (hq : s.tasks ≠ []) :
    (s.dispatch now).isSome = true := by
  obtain ⟨t, _, _, _, hdue, hnot⟩ := dispatch_eq s now hq
  by_cases hd : t.timeOfExecution ≤ now
  · rw [hdue hd]
    rfl
  · rw [hnot hd]
    rfl

/-- The effect of the locked block on the semaphore and on the queue length. -/
theorem dispatch_fields (s : TaskScheduler) (now : Int) (r : Dispatched)
    (hr : s.dispatch now = some r) :
    (r.sched.queueSem = s.queueSem ∧ r.sched.tasks.length + 1 = s.tasks.length) ∨
    (r.sched.queueSem = s.queueSem.Signal ∧ r.sched.tasks.length = s.tasks.length) := by
  have hq : s.tasks ≠ [] := by
    intro h
    simp [dispatch, h, PriorityQueue.top] at hr
  obtain ⟨t, _, hmem, _, hdue, hnot⟩ := dispatch_eq s now hq
  have hlen := (List.perm_cons_erase hmem).length_eq
  simp only [List.length_cons] at hlen
  by_cases hd : t.timeOfExecution ≤ now
  · rw [hdue hd] at hr
    cases hr
    left
    exact ⟨rfl, hlen.symm⟩
  · rw [hnot hd] at hr
    cases hr
    right
    refine ⟨rfl, ?_⟩
    simp only [PriorityQueue.push, List.length_append, List.length_singleton]
    omega

/-- C9: on every non-empty queue and at every clock reading `now`, the locked
dispatch step takes the task `t` that `top()` returns, a queued task with the
least scheduled time. If `t.timeOfExecution <= now` the step invokes the
callable of `t` and nothing else, does not call `Signal()`, and leaves the old
queue minus one copy of `t` (semaphore and flags unchanged). Otherwise it
invokes nothing, pushes `t` back, so that the queue afterwards is a permutation
of the queue before, and calls `Signal()` once. -/
theorem dispatch_step (s : TaskScheduler) (now : Int) (hq : s.tasks ≠ []) :
    ∃ t r, PriorityQueue.top s.tasks = some t ∧ t ∈ s.tasks ∧
      (∀ u ∈ s.tasks, t.timeOfExecution ≤ u.timeOfExecution) ∧
      s.dispatch now = some r ∧
      (t.timeOfExecution ≤ now →
        r.invoked = [t.packed_task] ∧ r.signalCalls = 0 ∧
        r.sched = { s with tasks := s.tasks.erase t } ∧
        List.Perm s.tasks (t :: r.sched.tasks)) ∧
      (¬ t.timeOfExecution ≤ now →
        r.invoked = [] ∧ r.signalCalls = 1 ∧
        r.sched = { s with tasks := PriorityQueue.push t (s.tasks.erase t)
                           queueSem := s.queueSem.Signal } ∧
        List.Perm r.sched.tasks s.tasks) := by
  obtain ⟨t, htop, hmem, hle, hdue, hnot⟩ := dispatch_eq s now hq
  by_cases hd : t.timeOfExecution ≤ now
  · refine ⟨t, _, htop, hmem, hle, hdue hd, ?_, ?_⟩
    · intro _
      exact ⟨rfl, rfl, rfl, List.perm_cons_erase hmem⟩
    · intro hn
      exact absurd hd hn
  · refine ⟨t, _, htop, hmem, hle, hnot hd, ?_, ?_⟩
    · intro hn
      exact absurd hn hd
    · intro _
      exact ⟨rfl, rfl, rfl,
        (List.perm_append_singleton t _).trans (List.perm_cons_erase hmem).symm⟩

/-- The dispatch step on `twoQueued` at clock reading 7: the earliest task,
callable 2 at tick 5, is due. -/
theorem dispatch_step_witness :
    twoQueued.tasks ≠ [] ∧
    ∃ t r, PriorityQueue.top twoQueued.tasks = some t ∧ t ∈ twoQueued.tasks ∧
      (∀ u ∈ twoQueued.tasks, t.timeOfExecution ≤ u.timeOfExecution) ∧
      twoQueued.dispatch 7 = some r ∧
      (t.timeOfExecution ≤ 7 →
        r.invoked = [t.packed_task] ∧ r.signalCalls = 0 ∧
        r.sched = { twoQueued with tasks := twoQueued.tasks.erase t } ∧
        List.Perm twoQueued.tasks (t :: r.sched.tasks)) ∧
      (¬ t.timeOfExecution ≤ 7 →
        r.invoked = [] ∧ r.signalCalls = 1 ∧
        r.sched = { twoQueued with tasks := PriorityQueue.push t (twoQueued.tasks.erase t)
                                   queueSem := twoQueued.queueSem.Signal } ∧
        List.Perm r.sched.tasks twoQueued.tasks) :=
  ⟨by decide, dispatch_step twoQueued 7 (by decide)⟩

/-! ## Scheduled times -/

/-- C5: a submission without a time specification made at clock reading `now`,
on a clock with `perMicro` ticks to the microsecond and with `now` minus one
microsecond representable, queues a task scheduled at `now - perMicro`, in both
overloads; at every clock reading `d >= now` the due-check
`timeOfExecution <= d` holds, and a worker whose `top()` is that task at
reading `d` invokes its callable, does not call `Signal()` and does not push
the task back. -/
theorem default_submission_due (now d : Int) (perMicro : Nat) (f : Callable)
    (s q : TaskScheduler) (hnow : isInt64 now)
    (hlow : INT64_MIN ≤ now - (perMicro : Int)) (hd : now ≤ d)
    (htop : PriorityQueue.top q.tasks = some ⟨f, now - (perMicro : Int)⟩) :
    (SubmitTask_default now perMicro f s).tasks =
      PriorityQueue.push ⟨f, now - (perMicro : Int)⟩ s.tasks ∧
    (SubmitTaskFireAndForget_default now perMicro f s).tasks =
      PriorityQueue.push ⟨f, now - (perMicro : Int)⟩ s.tasks ∧
    now - (perMicro : Int) ≤ d ∧
    q.dispatch d = some { sched := { q with tasks := PriorityQueue.pop q.tasks }
                          invoked := [f]
                          signalCalls := 0 } := by
  have hw : wrapInt64 (now + wrapInt64 (-1 * (perMicro : Int))) = now - (perMicro : Int) := by
    unfold isInt64 INT64_MIN INT64_MAX at *
    unfold wrapInt64
    omega
  have hdue : now - (perMicro : Int) ≤ d := by omega
  refine ⟨?_, ?_, hdue, ?_⟩
  · simp only [SubmitTask_default, hw]
  · simp only [SubmitTaskFireAndForget_default, hw]
  · simp only [dispatch, htop, hdue, if_true]

/-- A submission of callable 7 at reading 5000 of a nanosecond clock on a fresh
scheduler, dispatched at the same reading 5000. -/
theorem default_submission_due_witness :
    isInt64 5000 ∧ INT64_MIN ≤ 5000 - ((1000 : Nat) : Int) ∧ (5000 : Int) ≤ 5000 ∧
    PriorityQueue.top (SubmitTask_default 5000 1000 7 (TaskScheduler.new 8)).tasks =
      some ⟨7, 5000 - ((1000 : Nat) : Int)⟩ ∧
    (SubmitTask_default 5000 1000 7 (TaskScheduler.new 8)).tasks =
      PriorityQueue.push ⟨7, 5000 - ((1000 : Nat) : Int)⟩ (TaskScheduler.new 8).tasks ∧
    (SubmitTaskFireAndForget_default 5000 1000 7 (TaskScheduler.new 8)).tasks =
      PriorityQueue.push ⟨7, 5000 - ((1000 : Nat) : Int)⟩ (TaskScheduler.new 8).tasks ∧
    (5000 : Int) - ((1000 : Nat) : Int) ≤ 5000 ∧
    (SubmitTask_default 5000 1000 7 (TaskScheduler.new 8)).dispatch 5000 =
      some { sched := { SubmitTask_default 5000 1000 7 (TaskScheduler.new 8) with
                        tasks := PriorityQueue.pop
                          (SubmitTask_default 5000 1000 7 (TaskScheduler.new 8)).tasks }
             invoked := [7]
             signalCalls := 0 } :=
  ⟨by decide, by decide, by decide, by decide,
    default_submission_due 5000 5000 1000 7 (TaskScheduler.new 8)
      (SubmitTask_default 5000 1000 7 (TaskScheduler.new 8))
      (by decide) (by decide) (by decide) (by decide)⟩

/-- On a clock with the representation of `steady_clock` the conversion of the
time-point overloads adds `2^63` modulo `2^64`, and so never returns the tick
count it was given. -/
theorem steady_time_ne (tp : Int) :
    steady_time 1 tp = wrapInt64 (tp + 9223372036854775808) ∧ steady_time 1 tp ≠ tp := by
  unfold steady_time wrapInt64 INT64_MIN
  simp only [mul_one]
  constructor
  · omega
  · omega

/-- C6, evaluated on the code: for a time point of a clock with the
representation of `steady_clock`, 0 ticks after the epoch the conversion yields
-9223372036854775808 ticks and 1 tick before the epoch (where the subtraction
does not overflow) it yields 9223372036854775807 ticks; 1000000000 ticks after
the epoch both time-point overloads queue a task scheduled at
-9223372035854775808 ticks, not at 1000000000. -/
theorem time_point_rebased_to_min :
    steady_time 1 0 = -9223372036854775808 ∧
    steady_time 1 (-1) = 9223372036854775807 ∧
    steady_time 1 1000000000 = -9223372035854775808 ∧
    (SubmitTask_time_point 1 1000000000 7 (TaskScheduler.new 8)).tasks =
      [{ packed_task := 7, timeOfExecution := -9223372035854775808 }] ∧
    (SubmitTaskFireAndForget_time_point 1 1000000000 7 (TaskScheduler.new 8)).tasks =
      [{ packed_task := 7, timeOfExecution := -9223372035854775808 }] ∧
    (-9223372035854775808 : Int) ≠ 1000000000 := by
  decide

/-! ## Pool size -/

/-- C7, as amended: for every hardware-concurrency reading `h` with
`1 <= h < 2^32` the constructor computes the worker count `h - 1` without
unsigned underflow, and the count is at least 1 exactly when `h >= 2`. -/
theorem threadPoolSize_of_pos (h : Nat) (h1 : 1 ≤ h) (h2 : h < 4294967296) :
    ((TaskScheduler.new h).threadPoolSize : Int) = (h : Int) - 1 ∧
    (1 ≤ (TaskScheduler.new h).threadPoolSize ↔ 2 ≤ h) := by
  have hv : (TaskScheduler.new h).threadPoolSize = h - 1 := by
    show (h + 4294967296 - 1) % 4294967296 = h - 1
    omega
  rw [hv]
  omega

/-- The worker count for a hardware-concurrency reading of 8 is 7. -/
theorem threadPoolSize_of_pos_witness :
    1 ≤ 8 ∧ 8 < 4294967296 ∧
    ((TaskScheduler.new 8).threadPoolSize : Int) = ((8 : Nat) : Int) - 1 ∧
    (1 ≤ (TaskScheduler.new 8).threadPoolSize ↔ 2 ≤ 8) :=
  ⟨by decide, by decide, threadPoolSize_of_pos 8 (by decide) (by decide)⟩

/-- C7, as stated, fails: a hardware-concurrency reading of 1 gives a worker
count of 0, which is not at least 1, and a reading of 0 gives 4294967295, the
result of the unsigned underflow of `0 - 1`. -/
theorem threadPoolSize_not_clamped :
    (TaskScheduler.new 1).threadPoolSize = 0 ∧
    ¬ (1 ≤ (TaskScheduler.new 1).threadPoolSize) ∧
    (TaskScheduler.new 0).threadPoolSize = 4294967295 := by
  decide

end async.TaskScheduler

namespace async.Pool

/-! ## The pool invariant -/

theorem Inv_init (h : Nat) : Inv (init h) := by
  unfold Inv init TaskScheduler.new Semaphore.new isInt32 INT_MIN INT_MAX
  simp

/-- A `Signal()` on the semaphore of capacity 0 keeps the invariant when the
queue has room for one more unit. -/
theorem Inv_after_Signal (sem : Semaphore) (holding len : Nat)
    (hcap : sem.init_count_ = 0) (hty : isInt32 sem.count_)
    (h1 : 0 ≤ sem.count_ → sem.count_ + (holding : Int) + 1 ≤ (len : Int))
    (h2 : sem.count_ < 0 → 2147483648 + (holding : Int) ≤ (len : Int)) :
    sem.Signal.init_count_ = 0 ∧ isInt32 sem.Signal.count_ ∧
    (0 ≤ sem.Signal.count_ → sem.Signal.count_ + (holding : Int) ≤ (len : Int)) ∧
    (sem.Signal.count_ < 0 → 2147483648 + (holding : Int) ≤ (len : Int)) := by
  obtain ⟨hi, _, hcases⟩ := Semaphore.Signal_capacity_zero_cases sem hcap hty
  refine ⟨hi, ?_, ?_, ?_⟩
  · unfold isInt32 INT_MIN INT_MAX at *
    rcases hcases with ⟨_, _, h⟩ | ⟨_, h⟩ | ⟨_, h⟩ <;> rw [h] <;> omega
  · unfold isInt32 INT_MIN INT_MAX at *
    rcases hcases with ⟨_, _, h⟩ | ⟨_, h⟩ | ⟨_, h⟩ <;> rw [h] <;> omega
  · unfold isInt32 INT_MIN INT_MAX at *
    rcases hcases with ⟨_, _, h⟩ | ⟨_, h⟩ | ⟨_, h⟩ <;> rw [h] <;> omega

/-- Every atomic step keeps the invariant. -/
theorem Inv_step (p p1 : Pool) (a : Action) (hinv : Inv p) (hstep : p.step a = some p1) :
    Inv p1 := by
  obtain ⟨hcap, hty, hpos, hneg⟩ := hinv
  cases a with
  | submit now v =>
    simp only [step, Option.some.injEq] at hstep
    subst hstep
    obtain ⟨hs, t, ht⟩ := TaskScheduler.submit_fields now v p.sched
    have hl : (p.sched.submit now v).tasks.length = p.sched.tasks.length + 1 := by
      rw [ht]
      simp [PriorityQueue.push]
    unfold Inv
    simp only [hs, hl]
    exact Inv_after_Signal p.sched.queueSem p.holding (p.sched.tasks.length + 1) hcap hty
      (by intro h; have := hpos h; push_cast; omega)
      (by intro h; have := hneg h; push_cast; omega)
  | tryWait =>
    simp only [step, Option.some.injEq] at hstep
    subst hstep
    obtain ⟨hi, hcases⟩ := Semaphore.TryWait_cases p.sched.queueSem hty
    unfold Inv
    unfold isInt32 INT_MIN INT_MAX at *
    rcases hcases with ⟨hb, hc0, hc⟩ | ⟨hb, hc⟩
    · simp only [hb, if_true, hi, hc]
      refine ⟨hcap, by omega, ?_, ?_⟩
      · intro _
        have := hpos (by omega)
        push_cast
        omega
      · intro h
        omega
    · simp only [hb, hi, hc]
      exact ⟨hcap, hty, by simpa using hpos, by simpa using hneg⟩
  | dispatch now =>
    simp only [step] at hstep
    split at hstep
    · rename_i hen
      split at hstep
      · exact absurd hstep (by simp)
      · rename_i r hr
        simp only [Option.some.injEq] at hstep
        subst hstep
        have h3 := hen
        unfold Inv
        rcases TaskScheduler.dispatch_fields p.sched now r hr with ⟨hs, hl⟩ | ⟨hs, hl⟩
        · simp only [hs]
          refine ⟨hcap, hty, ?_, ?_⟩
          · intro h
            have := hpos h
            omega
          · intro h
            have := hneg h
            omega
        · simp only [hs]
          exact Inv_after_Signal p.sched.queueSem (p.holding - 1) r.sched.tasks.length
            hcap hty
            (by intro h; have := hpos h; omega)
            (by intro h; have := hneg h; omega)
    · exact absurd hstep (by simp)
  | discard =>
    simp only [step] at hstep
    split at hstep
    · rename_i hen
      simp only [Option.some.injEq] at hstep
      subst hstep
      have h3 := hen.1
      unfold Inv
      dsimp only
      refine ⟨hcap, hty, fun h => ?_, fun h => ?_⟩
      · have := hpos h
        omega
      · have := hneg h
        omega
    · exact absurd hstep (by simp)
  | shutdown =>
    simp only [step, Option.some.injEq] at hstep
    subst hstep
    exact ⟨hcap, hty, hpos, hneg⟩

/-- Every run keeps the invariant. -/
theorem Inv_run (as : List Action) (p p1 : Pool) (hinv : Inv p)
    (hrun : p.run as = some p1) : Inv p1 := by
  induction as generalizing p with
  | nil =>
    simp only [run, Option.some.injEq] at hrun
    subst hrun
    exact hinv
  | cons a rest ih =>
    simp only [run] at hrun
    split at hrun
    · exact absurd hrun (by simp)
    · rename_i p2 hp2
      exact ih p2 (Inv_step p p2 a hinv hp2) hrun

/-- A locked dispatch step that follows the shutdown store is a step of the
pool: the run submit, `TryWait()`, shutdown, dispatch at clock reading 5000
ends with the task executed, an empty queue and no worker holding a unit. -/
theorem dispatch_after_shutdown :
    (init 8).run [Action.submit 5000 (TaskScheduler.Submission.task_default 1000 1),
                  Action.tryWait,
                  Action.shutdown,
                  Action.dispatch 5000] =
      some { sched := { threadPoolSize := 7
                        queueSem := { init_count_ := 0, count_ := 0, destructing := false }
                        tasks := []
                        acceptNew := false }
             holding := 0 } := by
  decide

/-- C10: in every state reachable from the initial pool (semaphore count 0,
empty queue, no worker holding a unit) by submissions, `TryWait()` calls of
polling workers, locked dispatch steps (taken before or after the store of
false to `acceptNew`), discards after `acceptNew` became false and that store,
the semaphore count plus the number of workers holding an acquired unit is at
most the number of queued tasks; hence whenever a worker holds a unit the queue
is not empty and the locked block, with its `top()` and `pop()`, has a result
at every clock reading. -/
theorem reachable_never_pops_empty (h : Nat) (as : List Action) (p : Pool)
    (hrun : (init h).run as = some p) :
    p.sched.queueSem.count_ + (p.holding : Int) ≤ (p.sched.tasks.length : Int) ∧
    (0 < p.holding →
      p.sched.tasks ≠ [] ∧ ∀ now, (p.sched.dispatch now).isSome = true) := by
  obtain ⟨_, hty, hpos, hneg⟩ := Inv_run as (init h) p (Inv_init h) hrun
  have hlen : 0 < p.holding → 0 < p.sched.tasks.length := by
    intro hh
    by_cases hc : 0 ≤ p.sched.queueSem.count_
    · have := hpos hc
      omega
    · have := hneg (by omega)
      omega
  constructor
  · by_cases hc : 0 ≤ p.sched.queueSem.count_
    · exact hpos hc
    · have := hneg (by omega)
      omega
  · intro hh
    have hne : p.sched.tasks ≠ [] := by
      intro he
      have := hlen hh
      rw [he] at this
      simp at this
    exact ⟨hne, fun now => TaskScheduler.dispatch_isSome p.sched now hne⟩

/-- The run of two submissions, one successful `TryWait()` and the shutdown
store on a pool of seven workers: count 1, one worker holding a unit, two
queued tasks, `acceptNew` false. -/
theorem reachable_never_pops_empty_witness :
    (init 8).run [Action.submit 5000 (TaskScheduler.Submission.task_default 1000 1),
                  Action.submit 6000 (TaskScheduler.Submission.task_duration 1 500 2),
                  Action.tryWait,
                  Action.shutdown] =
      some { sched := { threadPoolSize := 7
                        queueSem := { init_count_ := 0, count_ := 1, destructing := false }
                        tasks := [{ packed_task := 1, timeOfExecution := 4000 },
                                  { packed_task := 2, timeOfExecution := 6500 }]
                        acceptNew := false }
             holding := 1 } ∧
    ((1 : Int) + ((1 : Nat) : Int) ≤ ((2 : Nat) : Int) ∧
     (0 < 1 →
       [Task.mk 1 4000, Task.mk 2 6500] ≠ [] ∧
       ∀ now, ((TaskScheduler.mk 7 (Semaphore.mk 0 1 false)
         [Task.mk 1 4000, Task.mk 2 6500] false).dispatch now).isSome = true)) :=
  ⟨by decide,
    reachable_never_pops_empty 8
      [Action.submit 5000 (TaskScheduler.Submission.task_default 1000 1),
       Action.submit 6000 (TaskScheduler.Submission.task_duration 1 500 2),
       Action.tryWait,
       Action.shutdown]
      { sched := { threadPoolSize := 7
                   queueSem := { init_count_ := 0, count_ := 1, destructing := false }
                   tasks := [{ packed_task := 1, timeOfExecution := 4000 },
                             { packed_task := 2, timeOfExecution := 6500 }]
                   acceptNew := false }
        holding := 1 }
      (by decide)⟩

end async.Pool

end geiger
